import Mathlib

/-!
Shallow embedding of the mata-connect enrichment pipeline
(src/enricher/database.py, src/enricher/process_communities.py,
src/enricher/load_to_mongodb.py) and proofs about its claims.

Python dict values parsed from JSON are modelled by the `Json` type;
Python `None` is `Json.null`, and a missing key is distinguished from a
key mapped to `Json.null` exactly as `dict.get` distinguishes them.
-/

namespace MataConnect

/-- JSON-like values held in the parsed `enriched_data` payload dictionaries. -/
inductive Json where
  | null : Json
  | str (s : String) : Json
  | num (n : Int) : Json
  | bool (b : Bool) : Json
  | arr (xs : List Json) : Json
  | obj (fields : List (String × Json)) : Json

/-- Python truthiness (`if x:`) for the modelled values: `None`, `""`, `0`,
`False`, `[]` and `{}` are falsy, everything else truthy. -/
def truthy : Json → Bool
  | .null => false
  | .str s => s != ""
  | .num n => n != 0
  | .bool b => b
  | .arr xs => !xs.isEmpty
  | .obj fields => !fields.isEmpty

/-- A Python dict (string keys), as an association list with the first
binding of a key authoritative. -/
abbrev PyDict := List (String × Json)

/-- Python `d.get(k, default)`: the stored value when the key is present
(even when that value is `None`), the default otherwise. -/
def PyDict.getD (d : PyDict) (k : String) (default : Json) : Json :=
  (List.lookup k d).getD default

/-- Python `d.get(k)`: `None` when the key is missing. -/
def PyDict.getN (d : PyDict) (k : String) : Json :=
  d.getD k Json.null

/-- Python's substring test `needle in hay` on lists of characters. -/
def listContainsSub (needle hay : List Char) : Bool :=
  match hay with
  | [] => needle.isEmpty
  | _ :: rest => needle.isPrefixOf hay || listContainsSub needle rest

/-- Python's substring test `needle in hay` on strings. -/
def strContains (hay needle : String) : Bool :=
  listContainsSub needle.data hay.data

/-- Python `x is None` for the modelled values. -/
def isNone : Json → Bool
  | .null => true
  | _ => false

/-- Python `s.upper()` (ASCII, which covers the vocabulary involved). -/
def pyUpper (s : String) : String := String.mk (s.data.map Char.toUpper)

/-- Python `s.lower()` (ASCII, which covers the vocabulary involved). -/
def pyLower (s : String) : String := String.mk (s.data.map Char.toLower)

/-! ## Transformer (src/enricher/load_to_mongodb.py, transform_community_data)

The Python function reads its `sqlite_data` dict through `dict.get` and
builds a fresh document.  It is embedded as a `StateM PyDict` program so
that the dict it is handed is explicit state: reads return the looked-up
value and leave the state alone, and the absence of any write to the
state is a provable property rather than a modelling assumption. -/

/-- The MongoDB document built by `transform_community_data`, with the
fields in source order.  The current date and timestamp taken at
transform time are parameters of the transform. -/
structure MongoDoc where
  name : Json
  description : Json
  website : Json
  tags : Json
  focus_areas : Json
  country : Json
  city : Json
  language : Json
  contact_email : Json
  is_virtual : Bool
  social_links : Json
  community_info : Json
  pricing_model : Json
  topics_supported : List Json
  audience_type : List Json
  event_types : List Json
  year_founded : Json
  verified : Bool
  embedding : List Json
  data_source : String
  created_at : String
  updated_at : String
  last_verified_at : String
  member_count : Json

/-- `sqlite_data.get(k, default)` as a state action (a pure read). -/
def readD (k : String) (default : Json) : StateM PyDict Json := do
  let d ← get
  pure (PyDict.getD d k default)

/-- `sqlite_data.get(k)` as a state action (a pure read). -/
def readN (k : String) : StateM PyDict Json :=
  readD k Json.null

/-- Lines 49-55: a list collapses to its first element (`None` when
empty); otherwise a falsy value becomes `None` and anything else is
kept. -/
def collapseLanguage : Json → Json
  | .arr [] => .null
  | .arr (x :: _) => x
  | v => if truthy v then v else .null

/-- Line 83: Python `x or ""`. -/
def pyOrEmptyStr (v : Json) : Json :=
  if truthy v then v else .str ""

/-- The pricing-model normalization of lines 61-71: a falsy value
(`None` or `""`) becomes `None`; a truthy string is upper-cased, kept if
exactly FREE/FREEMIUM/PAID, coerced to FREE if it contains "free"
case-insensitively, and to PAID otherwise.  `.upper()` on a truthy
non-string raises, modelled as `none`. -/
def normalizePricing (v : Json) : Option Json :=
  if truthy v then
    match v with
    | .str s =>
      let u := pyUpper s
      if u = "FREE" ∨ u = "FREEMIUM" ∨ u = "PAID" then some (.str u)
      else if strContains (pyLower u) "free" then some (.str "FREE")
      else some (.str "PAID")
    | _ => none
  else some .null

/-- Lines 49-105 of load_to_mongodb.py, with each `sqlite_data.get` a
read of the dict state, in source order.  `none` models the
`AttributeError` raised by `.upper()` on a truthy non-string
pricing_model (caught by the loader's per-row handler). -/
def transformProg (url currentDate currentTimestamp : String) :
    StateM PyDict (Option MongoDoc) := do
  let language0 ← readN "language"
  let language := collapseLanguage language0
  let countryV ← readN "country"
  let cityV ← readN "city"
  let is_virtual := isNone countryV && isNone cityV
  let pricing0 ← readN "pricing_model"
  match normalizePricing pricing0 with
  | none => pure none
  | some pricingModel => do
    let nameV ← readD "name" (.str "")
    let descriptionV ← readN "description"
    let websiteV ← readD "website" (.str url)
    let tagsV ← readD "tags" (.arr [])
    let focusAreas0 ← readN "focus_areas"
    let focusAreas := pyOrEmptyStr focusAreas0
    let countryV2 ← readN "country"
    let cityV2 ← readN "city"
    let contactEmail ← readN "contact_email"
    let socialLinks ← readD "social_links" (.obj [])
    let communityInfo ← readD "community_info" (.obj [])
    let memberCount ← readN "member_count"
    pure (some
      { name := nameV
        description := descriptionV
        website := websiteV
        tags := tagsV
        focus_areas := focusAreas
        country := countryV2
        city := cityV2
        language := language
        contact_email := contactEmail
        is_virtual := is_virtual
        social_links := socialLinks
        community_info := communityInfo
        pricing_model := pricingModel
        topics_supported := []
        audience_type := []
        event_types := []
        year_founded := Json.null
        verified := false
        embedding := []
        data_source := url
        created_at := currentDate
        updated_at := currentDate
        last_verified_at := currentTimestamp
        member_count := memberCount })

/-- `transform_community_data(sqlite_data, url)` on a parsed JSON value:
`sqlite_data.get` on a non-dict raises (`none`); on a dict the transform
runs over it. -/
def transform_community_data (sqlite_data : Json) (url currentDate currentTimestamp : String) :
    Option MongoDoc :=
  match sqlite_data with
  | .obj fields => ((transformProg url currentDate currentTimestamp).run fields).1
  | _ => none

/-! ## RecordStore (src/enricher/database.py)

The `communities` table has schema
`(id AUTOINCREMENT, url UNIQUE NOT NULL, enriched_data NOT NULL,
created_at DEFAULT CURRENT_TIMESTAMP, updated_at DEFAULT CURRENT_TIMESTAMP)`.
Timestamps are modelled as `Nat`; `CURRENT_TIMESTAMP` at the time of a
statement is an explicit `now` argument. -/

/-- One row of the `communities` table (the `id` column plays no role in
any lookup and is omitted). -/
structure StoredRow where
  url : String
  enriched_data : String
  created_at : Nat
  updated_at : Nat
  deriving Repr, DecidableEq

/-- The `communities` table.  `init_database` creates it empty. -/
abbrev Store := List StoredRow

/-- `url_exists`: `SELECT COUNT(*) FROM communities WHERE url = ?`,
then `count > 0`. -/
def url_exists (store : Store) (url : String) : Bool :=
  (store.filter (fun r => r.url == url)).length > 0

/-- `save_community_data`:
`INSERT OR REPLACE INTO communities (url, enriched_data, updated_at)
VALUES (?, ?, CURRENT_TIMESTAMP)`.
SQLite's `INSERT OR REPLACE` deletes any row conflicting on the UNIQUE
`url` and inserts a fresh row; the columns not named in the INSERT take
their defaults, so the fresh row's `created_at` is
`CURRENT_TIMESTAMP` (= `now`), not the deleted row's `created_at`. -/
def save_community_data (store : Store) (url enriched_data : String) (now : Nat) : Store :=
  store.filter (fun r => r.url != url) ++ [⟨url, enriched_data, now, now⟩]

/-- `get_community_data`:
`SELECT enriched_data FROM communities WHERE url = ?`, `fetchone()`. -/
def get_community_data (store : Store) (url : String) : Option String :=
  (store.find? (fun r => r.url == url)).map (fun r => r.enriched_data)

/-! ## PipelineOrchestrator (src/enricher/process_communities.py)

`process_communities` iterates over the URL list; the enrichment
collaborator is a black-box `enrich : String → Except Unit String`
returning the serialized payload on success (CSV reading, enricher
construction and printing are outside the loop being modelled).
`clock idx` is the `CURRENT_TIMESTAMP` seen by the save performed for
the URL at position `idx`.  `enrichCalls` counts the calls made to the
collaborator. -/

/-- Counters of the processing loop plus the evolving store. -/
structure ProcState where
  store : Store
  processed : Nat
  skipped : Nat
  failed : Nat
  enrichCalls : Nat

/-- The body of the `for url in urls` loop: skip an already-stored URL;
otherwise enrich, and on success save and count processed, on any
exception count failed and continue. -/
def processUrl (enrich : String → Except Unit String) (clock : Nat → Nat) (idx : Nat)
    (st : ProcState) (url : String) : ProcState :=
  if url_exists st.store url then
    { st with skipped := st.skipped + 1 }
  else
    match enrich url with
    | .ok payload =>
      { st with
        store := save_community_data st.store url payload (clock idx)
        processed := st.processed + 1
        enrichCalls := st.enrichCalls + 1 }
    | .error _ =>
      { st with
        failed := st.failed + 1
        enrichCalls := st.enrichCalls + 1 }

/-- The processing loop from position `idx` on. -/
def processList (enrich : String → Except Unit String) (clock : Nat → Nat) :
    Nat → ProcState → List String → ProcState
  | _, st, [] => st
  | idx, st, url :: rest =>
    processList enrich clock (idx + 1) (processUrl enrich clock idx st url) rest

/-- `process_communities(csv_path, db_path)` after the URLs have been
read: runs the loop over `urls` with all counters at zero against the
given store. -/
def process_communities (urls : List String) (enrich : String → Except Unit String)
    (store : Store) (clock : Nat → Nat) : ProcState :=
  processList enrich clock 0 ⟨store, 0, 0, 0, 0⟩ urls

/-! ## BatchLoader (src/enricher/load_to_mongodb.py, load_sqlite_to_mongodb)

Rows come from `SELECT url, enriched_data FROM communities`; the
`json.loads` of each `enriched_data` text is given directly
(`none` = `json.JSONDecodeError`).  Each `collection.insert_many` call
is answered by the destination oracle `dest`, indexed by how many
insert calls have been made so far. -/

/-- Outcome of one `collection.insert_many(documents)` call:
all documents inserted; a `BulkWriteError` whose `writeErrors` list has
the given length; or any other exception (e.g. connectivity). -/
inductive InsertResult where
  | ok : InsertResult
  | bulkError (numWriteErrors : Nat) : InsertResult
  | connFail : InsertResult
  deriving Repr, DecidableEq

/-- Loop state of the loader: the pending `documents` buffer, the
`processed` and `failed` counters (Python ints), and the number of
insert calls made so far. -/
structure LoadState where
  documents : List MongoDoc
  processed : Int
  failed : Int
  calls : Nat

/-- One iteration of `for idx, (url, json_data) in enumerate(rows, 1)`:
parse, transform, append, and flush a full batch.  A `BulkWriteError`
adds `len(documents) - len(writeErrors)` to `failed` (line 170) and
clears the buffer; any other insert exception falls through to the
per-row `except Exception` handler, which adds 1 to `failed` and leaves
the buffer as it is. -/
def loadRow (dest : Nat → InsertResult) (batch_size : Nat)
    (currentDate currentTimestamp : String) (st : LoadState)
    (row : String × Option Json) : LoadState :=
  match row.2 with
  | none => { st with failed := st.failed + 1 }
  | some sqlite_data =>
    match transform_community_data sqlite_data row.1 currentDate currentTimestamp with
    | none => { st with failed := st.failed + 1 }
    | some doc =>
      let documents := st.documents ++ [doc]
      if documents.length ≥ batch_size then
        match dest st.calls with
        | .ok =>
          { st with
            documents := []
            processed := st.processed + documents.length
            calls := st.calls + 1 }
        | .bulkError w =>
          { st with
            documents := []
            failed := st.failed + ((documents.length : Int) - (w : Int))
            calls := st.calls + 1 }
        | .connFail =>
          { st with
            documents := documents
            failed := st.failed + 1
            calls := st.calls + 1 }
      else { st with documents := documents }

/-- The `if documents:` block after the loop.  Only `BulkWriteError` is
caught there; any other insert exception propagates and aborts the run
(`none`). -/
def finalFlush (dest : Nat → InsertResult) (st : LoadState) : Option LoadState :=
  if st.documents.isEmpty then some st
  else
    match dest st.calls with
    | .ok =>
      some { st with
             processed := st.processed + st.documents.length
             calls := st.calls + 1 }
    | .bulkError w =>
      some { st with
             failed := st.failed + ((st.documents.length : Int) - (w : Int))
             calls := st.calls + 1 }
    | .connFail => none

/-- The final summary logged by the loader. -/
structure LoadSummary where
  total : Nat
  processed : Int
  failed : Int
  deriving Repr, DecidableEq

/-- `load_sqlite_to_mongodb(db_path, batch_size)` after the rows have
been fetched (configuration validation and connection setup are outside
the modelled loop; with no rows the function returns with all counters
zero before printing a summary). -/
def load_sqlite_to_mongodb (rows : List (String × Option Json)) (dest : Nat → InsertResult)
    (batch_size : Nat) (currentDate currentTimestamp : String) : Option LoadSummary :=
  if rows.isEmpty then some ⟨0, 0, 0⟩
  else
    match finalFlush dest
        (rows.foldl (loadRow dest batch_size currentDate currentTimestamp) ⟨[], 0, 0, 0⟩) with
    | none => none
    | some st => some ⟨rows.length, st.processed, st.failed⟩

/-! ## Helper lemmas -/

theorem toNat_ofNat_small {m : Nat} (h : m < 0xd800) : (Char.ofNat m).toNat = m := by
  rw [Char.ofNat, dif_pos (Or.inl h)]
  simp [Char.ofNatAux, Char.toNat, UInt32.toNat]

theorem toLower_toUpper_char (c : Char) : c.toUpper.toLower = c.toLower := by
  simp only [Char.toUpper, Char.toLower]
  by_cases h : c.toNat ≥ 97 ∧ c.toNat ≤ 122
  · rw [if_pos h]
    have ht : (Char.ofNat (c.toNat - 32)).toNat = c.toNat - 32 := toNat_ofNat_small (by omega)
    rw [ht, if_pos (by omega), Nat.sub_add_cancel (by omega), Char.ofNat_toNat,
      if_neg (by omega)]
  · rw [if_neg h]

/-- Lower-casing after upper-casing is plain lower-casing (the loader
checks `"free" in pricing_model.lower()` after having upper-cased
`pricing_model`, which is the case-insensitive test on the original). -/
theorem pyLower_pyUpper (s : String) : pyLower (pyUpper s) = pyLower s := by
  simp only [pyLower, pyUpper, List.map_map]
  rw [show Char.toLower ∘ Char.toUpper = Char.toLower from funext toLower_toUpper_char]

theorem url_exists_true_iff (store : Store) (u : String) :
    url_exists store u = true ↔ ∃ r ∈ store, r.url = u := by
  constructor
  · intro h
    have hlen : 0 < (store.filter (fun r => r.url == u)).length := by
      simpa [url_exists] using h
    obtain ⟨r, hr⟩ := List.exists_mem_of_length_pos hlen
    have := List.mem_filter.mp hr
    exact ⟨r, this.1, by simpa using this.2⟩
  · intro ⟨r, hr, hu⟩
    have hmem : r ∈ store.filter (fun r => r.url == u) :=
      List.mem_filter.mpr ⟨hr, by simp [hu]⟩
    simpa [url_exists] using List.length_pos.mpr (List.ne_nil_of_mem hmem)

theorem url_exists_save_self (store : Store) (u p : String) (t : Nat) :
    url_exists (save_community_data store u p t) u = true := by
  rw [url_exists_true_iff]
  exact ⟨⟨u, p, t, t⟩, by simp [save_community_data], rfl⟩

theorem url_exists_save_mono (store : Store) (u u' p : String) (t : Nat)
    (h : url_exists store u = true) :
    url_exists (save_community_data store u' p t) u = true := by
  rw [url_exists_true_iff] at h ⊢
  obtain ⟨r, hr, hu⟩ := h
  by_cases he : u = u'
  · exact ⟨⟨u', p, t, t⟩, by simp [save_community_data], he.symm⟩
  · refine ⟨r, ?_, hu⟩
    simp only [save_community_data, List.mem_append, List.mem_filter]
    exact Or.inl ⟨hr, by simp [hu, he]⟩

/-- Evaluation of the transform on a dict whose pricing model
normalizes without raising: every output field in terms of the
corresponding `dict.get`. -/
theorem transform_eval (d : PyDict) (url cd ct : String) (pm : Json)
    (h : normalizePricing (PyDict.getD d "pricing_model" Json.null) = some pm) :
    transform_community_data (.obj d) url cd ct = some
      { name := PyDict.getD d "name" (.str "")
        description := PyDict.getD d "description" .null
        website := PyDict.getD d "website" (.str url)
        tags := PyDict.getD d "tags" (.arr [])
        focus_areas := pyOrEmptyStr (PyDict.getD d "focus_areas" .null)
        country := PyDict.getD d "country" .null
        city := PyDict.getD d "city" .null
        language := collapseLanguage (PyDict.getD d "language" .null)
        contact_email := PyDict.getD d "contact_email" .null
        is_virtual := isNone (PyDict.getD d "country" .null) && isNone (PyDict.getD d "city" .null)
        social_links := PyDict.getD d "social_links" (.obj [])
        community_info := PyDict.getD d "community_info" (.obj [])
        pricing_model := pm
        topics_supported := []
        audience_type := []
        event_types := []
        year_founded := .null
        verified := false
        embedding := []
        data_source := url
        created_at := cd
        updated_at := cd
        last_verified_at := ct
        member_count := PyDict.getD d "member_count" .null } := by
  simp only [transform_community_data, transformProg, readN, readD, StateT.run, bind, StateT.bind,
    get, getThe, MonadStateOf.get, StateT.get, pure, StateT.pure]
  rw [h]
  rfl

theorem processList_store_mono (enrich : String → Except Unit String) (clock : Nat → Nat)
    (urls : List String) (idx : Nat) (st : ProcState) (u : String)
    (h : url_exists st.store u = true) :
    url_exists (processList enrich clock idx st urls).store u = true := by
  induction urls generalizing idx st with
  | nil => simpa [processList] using h
  | cons v rest ih =>
    simp only [processList]
    apply ih
    unfold processUrl
    by_cases hv : url_exists st.store v = true
    · simpa [hv] using h
    · cases he : enrich v with
      | ok p => simpa [hv, he] using url_exists_save_mono st.store u v p (clock idx) h
      | error e => simpa [hv, he] using h

theorem processList_failed_le (enrich : String → Except Unit String) (clock : Nat → Nat)
    (urls : List String) (idx : Nat) (st : ProcState) :
    st.failed ≤ (processList enrich clock idx st urls).failed := by
  induction urls generalizing idx st with
  | nil => exact Nat.le_refl _
  | cons v rest ih =>
    refine Nat.le_trans ?_ (ih (idx + 1) (processUrl enrich clock idx st v))
    unfold processUrl
    by_cases hv : url_exists st.store v = true
    · simp [hv]
    · cases he : enrich v with
      | ok p => simp [hv, he]
      | error e => simp [hv, he]

theorem processList_exists_of_failed_eq (enrich : String → Except Unit String) (clock : Nat → Nat)
    (urls : List String) (idx : Nat) (st : ProcState)
    (h : (processList enrich clock idx st urls).failed = st.failed) :
    ∀ u ∈ urls, url_exists (processList enrich clock idx st urls).store u = true := by
  induction urls generalizing idx st with
  | nil => simp
  | cons v rest ih =>
    intro u hu
    simp only [processList] at h ⊢
    by_cases hv : url_exists st.store v = true
    · have hst : processUrl enrich clock idx st v = { st with skipped := st.skipped + 1 } := by
        simp [processUrl, hv]
      rw [hst] at h ⊢
      rcases List.mem_cons.mp hu with rfl | hu
      · exact processList_store_mono enrich clock rest (idx + 1) _ u (by simpa using hv)
      · exact ih (idx + 1) _ (by simpa using h) u hu
    · cases he : enrich v with
      | ok p =>
        have hst : processUrl enrich clock idx st v =
            { st with store := save_community_data st.store v p (clock idx),
                      processed := st.processed + 1, enrichCalls := st.enrichCalls + 1 } := by
          simp [processUrl, hv, he]
        rw [hst] at h ⊢
        rcases List.mem_cons.mp hu with rfl | hu
        · exact processList_store_mono enrich clock rest (idx + 1) _ u
            (url_exists_save_self st.store u p (clock idx))
        · exact ih (idx + 1) _ (by simpa using h) u hu
      | error e =>
        exfalso
        have hst : processUrl enrich clock idx st v =
            { st with failed := st.failed + 1, enrichCalls := st.enrichCalls + 1 } := by
          simp [processUrl, hv, he]
        rw [hst] at h
        have hle := processList_failed_le enrich clock rest (idx + 1)
          { st with failed := st.failed + 1, enrichCalls := st.enrichCalls + 1 }
        simp at hle
        omega

theorem processList_all_skip (enrich : String → Except Unit String) (clock : Nat → Nat)
    (urls : List String) (idx : Nat) (st : ProcState)
    (h : ∀ u ∈ urls, url_exists st.store u = true) :
    processList enrich clock idx st urls = { st with skipped := st.skipped + urls.length } := by
  induction urls generalizing idx st with
  | nil => simp [processList]
  | cons v rest ih =>
    have hv := h v (by simp)
    simp only [processList]
    have hst : processUrl enrich clock idx st v = { st with skipped := st.skipped + 1 } := by
      simp [processUrl, hv]
    rw [hst, ih (idx + 1) { st with skipped := st.skipped + 1 }
      (fun u hu => h u (by simp [hu]))]
    simp [Nat.add_assoc, Nat.add_comm 1]

theorem processList_counts (enrich : String → Except Unit String) (clock : Nat → Nat)
    (urls : List String) (idx : Nat) (st : ProcState) :
    (processList enrich clock idx st urls).processed
      + (processList enrich clock idx st urls).skipped
      + (processList enrich clock idx st urls).failed
      = st.processed + st.skipped + st.failed + urls.length := by
  induction urls generalizing idx st with
  | nil => simp [processList]
  | cons v rest ih =>
    simp only [processList]
    rw [ih]
    unfold processUrl
    by_cases hv : url_exists st.store v = true
    · simp [hv]; omega
    · cases he : enrich v with
      | ok p => simp [hv, he]; omega
      | error e => simp [hv, he]; omega

/-! ## Claims -/

/-- A minimal well-formed row for concrete loader runs: valid JSON whose
payload is the empty dict. -/
def sampleRow (u : String) : String × Option Json := (u, some (.obj []))

/-- C1: the spec says a batch of 5 documents with 1 rejected contributes
4 to succeeded and 1 to failed.  The code instead computes the accepted
count `len(documents) - len(writeErrors)` and adds it to `failed`, adding
nothing to `processed`: the run reports 0 succeeded and 4 failed. -/
theorem loader_partial_rejection_miscounts :
    load_sqlite_to_mongodb
        [sampleRow "a", sampleRow "b", sampleRow "c", sampleRow "d", sampleRow "e"]
        (fun _ => .bulkError 1) 5 "2024-01-01" "ts" = some ⟨5, 0, 4⟩ := rfl

/-- C2: `INSERT OR REPLACE` deletes the conflicting row and inserts a
fresh one whose `created_at` takes the column default
`CURRENT_TIMESTAMP`: re-saving url "http://a" (stored with
created_at = 0) at time 5 replaces the payload and sets updated_at = 5,
but also resets created_at to 5 instead of preserving 0.  A URL with no
stored record is inserted as a new row. -/
theorem save_resets_created_at :
    save_community_data [⟨"http://a", "old", 0, 0⟩] "http://a" "new" 5 =
      [⟨"http://a", "new", 5, 5⟩]
    ∧ save_community_data [] "http://a" "new" 3 = [⟨"http://a", "new", 3, 3⟩] :=
  ⟨rfl, rfl⟩

/-- C3: per URL in input order, an already-stored URL only increments
skipped (store untouched); otherwise enrich is called and on success the
result is saved and processed incremented, on error failed is
incremented and the loop continues; the final counters satisfy
processed + skipped + failed = total = number of URLs. -/
theorem process_step_and_summary (urls : List String) (enrich : String → Except Unit String)
    (store : Store) (clock : Nat → Nat) :
    ((process_communities urls enrich store clock).processed
        + (process_communities urls enrich store clock).skipped
        + (process_communities urls enrich store clock).failed = urls.length)
    ∧ (∀ (idx : Nat) (st : ProcState) (u : String), url_exists st.store u = true →
        processUrl enrich clock idx st u = { st with skipped := st.skipped + 1 })
    ∧ (∀ (idx : Nat) (st : ProcState) (u p : String), url_exists st.store u = false →
        enrich u = .ok p →
        processUrl enrich clock idx st u =
          { st with store := save_community_data st.store u p (clock idx)
                    processed := st.processed + 1
                    enrichCalls := st.enrichCalls + 1 })
    ∧ (∀ (idx : Nat) (st : ProcState) (u : String) (e : Unit), url_exists st.store u = false →
        enrich u = .error e →
        processUrl enrich clock idx st u =
          { st with failed := st.failed + 1, enrichCalls := st.enrichCalls + 1 }) := by
  refine ⟨?_, ?_, ?_, ?_⟩
  · simpa [process_communities] using processList_counts enrich clock urls 0 ⟨store, 0, 0, 0, 0⟩
  · intro idx st u h
    simp [processUrl, h]
  · intro idx st u p h he
    simp [processUrl, h, he]
  · intro idx st u e h he
    simp [processUrl, h, he]

/-- C3 witness: the three step shapes and the count identity at
concrete inputs. -/
theorem process_step_and_summary_witness :
    ((process_communities ["a", "b"] (fun u => if u = "b" then .error () else .ok "p")
        [] (fun _ => 7)).processed
      + (process_communities ["a", "b"] (fun u => if u = "b" then .error () else .ok "p")
        [] (fun _ => 7)).skipped
      + (process_communities ["a", "b"] (fun u => if u = "b" then .error () else .ok "p")
        [] (fun _ => 7)).failed = 2)
    ∧ processUrl (fun u => if u = "b" then .error () else .ok "p") (fun _ => 7) 0
        ⟨[⟨"a", "x", 0, 0⟩], 0, 0, 0, 0⟩ "a" = ⟨[⟨"a", "x", 0, 0⟩], 0, 1, 0, 0⟩
    ∧ processUrl (fun u => if u = "b" then .error () else .ok "p") (fun _ => 7) 0
        ⟨[], 0, 0, 0, 0⟩ "a" = ⟨save_community_data [] "a" "p" 7, 1, 0, 0, 1⟩
    ∧ processUrl (fun u => if u = "b" then .error () else .ok "p") (fun _ => 7) 0
        ⟨[], 0, 0, 0, 0⟩ "b" = ⟨[], 0, 0, 1, 1⟩ := by
  refine ⟨?_, ?_, ?_, ?_⟩
  · exact (process_step_and_summary ["a", "b"]
      (fun u => if u = "b" then .error () else .ok "p") [] (fun _ => 7)).1
  · exact (process_step_and_summary ["a", "b"]
      (fun u => if u = "b" then .error () else .ok "p") [] (fun _ => 7)).2.1 0
      ⟨[⟨"a", "x", 0, 0⟩], 0, 0, 0, 0⟩ "a" (by decide)
  · exact (process_step_and_summary ["a", "b"]
      (fun u => if u = "b" then .error () else .ok "p") [] (fun _ => 7)).2.2.1 0
      ⟨[], 0, 0, 0, 0⟩ "a" "p" (by decide) rfl
  · exact (process_step_and_summary ["a", "b"]
      (fun u => if u = "b" then .error () else .ok "p") [] (fun _ => 7)).2.2.2 0
      ⟨[], 0, 0, 0, 0⟩ "b" () (by decide) rfl

/-- C4: if a run left no failures, a second run of the enrichment phase
over the same URL list against the resulting store makes zero calls to
the collaborator (whatever collaborator it is handed), skips every URL,
and leaves the store exactly as it was. -/
theorem enrichment_idempotent (urls : List String)
    (enrich enrich2 : String → Except Unit String) (store : Store) (clock clock2 : Nat → Nat)
    (h : (process_communities urls enrich store clock).failed = 0) :
    process_communities urls enrich2 (process_communities urls enrich store clock).store clock2 =
      ⟨(process_communities urls enrich store clock).store, 0, urls.length, 0, 0⟩ := by
  have hex : ∀ u ∈ urls,
      url_exists (process_communities urls enrich store clock).store u = true := by
    have hfe : (processList enrich clock 0 ⟨store, 0, 0, 0, 0⟩ urls).failed =
        (⟨store, 0, 0, 0, 0⟩ : ProcState).failed := by
      simpa [process_communities] using h
    simpa [process_communities] using
      processList_exists_of_failed_eq enrich clock urls 0 ⟨store, 0, 0, 0, 0⟩ hfe
  have hskip := processList_all_skip enrich2 clock2 urls 0
    ⟨(process_communities urls enrich store clock).store, 0, 0, 0, 0⟩ hex
  simpa [process_communities] using hskip

/-- C4 witness: one successfully enriched URL, then a second run with a
collaborator that always fails still skips it and changes nothing. -/
theorem enrichment_idempotent_witness :
    (process_communities ["http://a"] (fun _ => .ok "p") [] (fun _ => 0)).failed = 0
    ∧ process_communities ["http://a"] (fun _ => .error ())
        (process_communities ["http://a"] (fun _ => .ok "p") [] (fun _ => 0)).store
        (fun _ => 1) =
      ⟨(process_communities ["http://a"] (fun _ => .ok "p") [] (fun _ => 0)).store,
        0, 1, 0, 0⟩ :=
  ⟨rfl, enrichment_idempotent ["http://a"] (fun _ => .ok "p") (fun _ => .error ()) []
    (fun _ => 0) (fun _ => 1) rfl⟩

/-- C5 (counterexample): the claim's cascade for a present pricing_model
value predicts "PAID" for the empty string (upper-cased "" is not in the
closed set and does not contain "free"); the code's truthiness test
`if pricing_model:` treats "" like an absent value and yields null. -/
theorem pricing_empty_string_cex :
    ¬ (∀ (d : PyDict) (url cd ct s : String),
        List.lookup "pricing_model" d = some (.str s) →
        (transform_community_data (.obj d) url cd ct).map (fun m => m.pricing_model) =
          some (if pyUpper s = "FREE" ∨ pyUpper s = "FREEMIUM" ∨ pyUpper s = "PAID"
                then Json.str (pyUpper s)
                else if strContains (pyLower s) "free" then Json.str "FREE"
                else Json.str "PAID")) := by
  intro hclaim
  have h := hclaim [("pricing_model", .str "")] "u" "d" "t" "" rfl
  have heval : (transform_community_data (.obj [("pricing_model", Json.str "")])
      "u" "d" "t").map (fun m => m.pricing_model) = some Json.null := rfl
  rw [heval, if_neg (by decide), if_neg (by decide)] at h
  exact Json.noConfusion (Option.some.inj h)

/-- C5 (amended): the pricing result is null when pricing_model is
absent, null, or the empty string; otherwise it is the upper-cased value
when that is exactly FREE, FREEMIUM or PAID, else FREE when the value
contains "free" case-insensitively, else PAID. -/
theorem pricing_normalization_amended (d : PyDict) (url cd ct : String) :
    ((List.lookup "pricing_model" d = none ∨ List.lookup "pricing_model" d = some .null →
        (transform_community_data (.obj d) url cd ct).map (fun m => m.pricing_model) =
          some .null)
     ∧ (∀ s, List.lookup "pricing_model" d = some (.str s) →
        (transform_community_data (.obj d) url cd ct).map (fun m => m.pricing_model) =
          some (if s = "" then Json.null
                else if pyUpper s = "FREE" ∨ pyUpper s = "FREEMIUM" ∨ pyUpper s = "PAID"
                then Json.str (pyUpper s)
                else if strContains (pyLower s) "free" then Json.str "FREE"
                else Json.str "PAID"))) := by
  constructor
  · intro h
    have hv : PyDict.getD d "pricing_model" Json.null = Json.null := by
      rcases h with h | h <;> simp [PyDict.getD, h]
    have hnp : normalizePricing (PyDict.getD d "pricing_model" Json.null) = some Json.null := by
      rw [hv]; rfl
    rw [transform_eval d url cd ct Json.null hnp]; rfl
  · intro s hs
    have hv : PyDict.getD d "pricing_model" Json.null = Json.str s := by
      simp [PyDict.getD, hs]
    by_cases hemp : s = ""
    · subst hemp
      have hnp : normalizePricing (PyDict.getD d "pricing_model" Json.null) =
          some Json.null := by rw [hv]; rfl
      rw [transform_eval d url cd ct Json.null hnp, if_pos rfl]; rfl
    · have hnp : normalizePricing (PyDict.getD d "pricing_model" Json.null) =
          some (if pyUpper s = "FREE" ∨ pyUpper s = "FREEMIUM" ∨ pyUpper s = "PAID"
                then Json.str (pyUpper s)
                else if strContains (pyLower s) "free" then Json.str "FREE"
                else Json.str "PAID") := by
        rw [hv]
        simp only [normalizePricing, truthy]
        rw [if_pos (by simpa using hemp), pyLower_pyUpper]
        split_ifs <;> rfl
      rw [transform_eval d url cd ct _ hnp, if_neg hemp]; rfl

/-- C5 witness: an absent pricing model yields null, and a present value
outside the closed set without "free" yields PAID. -/
theorem pricing_normalization_amended_witness :
    (transform_community_data (.obj []) "u" "d" "t").map (fun m => m.pricing_model) =
      some Json.null
    ∧ (transform_community_data (.obj [("pricing_model", Json.str "Community")])
        "u" "d" "t").map (fun m => m.pricing_model) = some (Json.str "PAID") :=
  ⟨(pricing_normalization_amended [] "u" "d" "t").1 (Or.inl rfl),
   (pricing_normalization_amended [("pricing_model", Json.str "Community")] "u" "d" "t").2
     "Community" rfl⟩

/-- C6 (counterexample): the claim says transform maps "Freemium Plan"
to "PAID", but "freemium plan" does contain the substring "free", so the
code coerces it to "FREE". -/
theorem pricing_freemium_plan_cex :
    (transform_community_data (.obj [("pricing_model", Json.str "Freemium Plan")])
        "u" "d" "t").map (fun m => m.pricing_model) = some (Json.str "FREE")
    ∧ Json.str "FREE" ≠ Json.str "PAID" :=
  ⟨rfl, by intro h; injection h with h2; exact absurd h2 (by decide)⟩

/-- C6 (amended): "free" maps to FREE, "Freemium Plan" maps to FREE (its
lower-case form contains "free"), "Freemium" maps to FREEMIUM, and
"Subscription" maps to PAID. -/
theorem pricing_examples_amended :
    (transform_community_data (.obj [("pricing_model", Json.str "free")]) "u" "d" "t").map
      (fun m => m.pricing_model) = some (Json.str "FREE")
    ∧ (transform_community_data (.obj [("pricing_model", Json.str "Freemium Plan")])
        "u" "d" "t").map (fun m => m.pricing_model) = some (Json.str "FREE")
    ∧ (transform_community_data (.obj [("pricing_model", Json.str "Freemium")])
        "u" "d" "t").map (fun m => m.pricing_model) = some (Json.str "FREEMIUM")
    ∧ (transform_community_data (.obj [("pricing_model", Json.str "Subscription")])
        "u" "d" "t").map (fun m => m.pricing_model) = some (Json.str "PAID") :=
  ⟨rfl, rfl, rfl, rfl⟩

/-- C7: a fully failing insert (non-BulkWriteError) in the main loop is
caught by the per-row handler: only 1 is added to failed (not the batch
size), the batch's documents stay buffered and are retried together with
later documents (here succeeding, so the run reports 4 processed,
1 failed); and a fully failing insert of the trailing batch propagates
and aborts the run instead of counting the batch as failed. -/
theorem loader_full_failure_mishandled :
    load_sqlite_to_mongodb [sampleRow "a", sampleRow "b", sampleRow "c", sampleRow "d"]
        (fun n => if n = 0 then .connFail else .ok) 2 "2024-01-01" "ts" = some ⟨4, 4, 1⟩
    ∧ load_sqlite_to_mongodb [sampleRow "a"] (fun _ => .connFail) 2 "2024-01-01" "ts" = none :=
  ⟨rfl, rfl⟩

/-- C8 (counterexample): on a payload that carries every key with a null
value (the claim's own data-model premise), the `dict.get` defaults do
not fire: website, tags, social_links and community_info all come out
null instead of url, [], {} and {}; only focus_areas (computed with
`or ""`) becomes "". -/
theorem transform_null_defaults_cex :
    (transform_community_data
        (.obj [("website", Json.null), ("tags", Json.null), ("focus_areas", Json.null),
               ("social_links", Json.null), ("community_info", Json.null)])
        "http://x" "d" "t").map
        (fun m => (m.website, m.tags, m.focus_areas, m.social_links, m.community_info)) =
      some (Json.null, Json.null, Json.str "", Json.null, Json.null)
    ∧ Json.null ≠ Json.str "http://x"
    ∧ Json.null ≠ Json.arr []
    ∧ Json.null ≠ Json.obj [] :=
  ⟨rfl, fun h => Json.noConfusion h, fun h => Json.noConfusion h, fun h => Json.noConfusion h⟩

/-- C8 (amended): the website/tags/social_links/community_info defaults
apply exactly when the key is missing from the payload mapping; a key
present with a null value passes null through; focus_areas becomes ""
whether its key is missing or null. -/
theorem transform_defaults_amended (d : PyDict) (url cd ct : String) (pm : Json)
    (hp : normalizePricing (PyDict.getD d "pricing_model" Json.null) = some pm) :
    ((List.lookup "website" d = none →
        (transform_community_data (.obj d) url cd ct).map (fun m => m.website) =
          some (.str url))
     ∧ (List.lookup "website" d = some .null →
        (transform_community_data (.obj d) url cd ct).map (fun m => m.website) = some .null)
     ∧ (List.lookup "tags" d = none →
        (transform_community_data (.obj d) url cd ct).map (fun m => m.tags) = some (.arr []))
     ∧ (List.lookup "tags" d = some .null →
        (transform_community_data (.obj d) url cd ct).map (fun m => m.tags) = some .null)
     ∧ ((List.lookup "focus_areas" d = none ∨ List.lookup "focus_areas" d = some .null) →
        (transform_community_data (.obj d) url cd ct).map (fun m => m.focus_areas) =
          some (.str ""))
     ∧ (List.lookup "social_links" d = none →
        (transform_community_data (.obj d) url cd ct).map (fun m => m.social_links) =
          some (.obj []))
     ∧ (List.lookup "social_links" d = some .null →
        (transform_community_data (.obj d) url cd ct).map (fun m => m.social_links) =
          some .null)
     ∧ (List.lookup "community_info" d = none →
        (transform_community_data (.obj d) url cd ct).map (fun m => m.community_info) =
          some (.obj []))
     ∧ (List.lookup "community_info" d = some .null →
        (transform_community_data (.obj d) url cd ct).map (fun m => m.community_info) =
          some .null)) := by
  rw [transform_eval d url cd ct pm hp]
  refine ⟨?_, ?_, ?_, ?_, ?_, ?_, ?_, ?_, ?_⟩
  · intro h; simp [PyDict.getD, h]
  · intro h; simp [PyDict.getD, h]
  · intro h; simp [PyDict.getD, h]
  · intro h; simp [PyDict.getD, h]
  · intro h
    rcases h with h | h <;> simp [PyDict.getD, h, pyOrEmptyStr, truthy]
  · intro h; simp [PyDict.getD, h]
  · intro h; simp [PyDict.getD, h]
  · intro h; simp [PyDict.getD, h]
  · intro h; simp [PyDict.getD, h]

/-- C8 witness: a payload with website present-but-null and every other
key missing. -/
theorem transform_defaults_amended_witness :
    (transform_community_data (.obj [("website", Json.null)]) "http://x" "d" "t").map
      (fun m => m.website) = some Json.null
    ∧ (transform_community_data (.obj [("website", Json.null)]) "http://x" "d" "t").map
      (fun m => m.tags) = some (Json.arr [])
    ∧ (transform_community_data (.obj [("website", Json.null)]) "http://x" "d" "t").map
      (fun m => m.focus_areas) = some (Json.str "") :=
  ⟨(transform_defaults_amended [("website", Json.null)] "http://x" "d" "t" Json.null rfl).2.1
     rfl,
   (transform_defaults_amended [("website", Json.null)] "http://x" "d" "t" Json.null rfl).2.2.1
     rfl,
   (transform_defaults_amended [("website", Json.null)] "http://x" "d" "t"
     Json.null rfl).2.2.2.2.1 (Or.inl rfl)⟩

/-- C9: a pricing_model key present with the empty string is treated
exactly like an absent one: the transformed pricing model is null. -/
theorem pricing_empty_string_null (d : PyDict) (url cd ct : String)
    (h : List.lookup "pricing_model" d = some (Json.str "")) :
    (transform_community_data (.obj d) url cd ct).map (fun m => m.pricing_model) =
      some Json.null := by
  have hv : PyDict.getD d "pricing_model" Json.null = Json.str "" := by
    simp [PyDict.getD, h]
  have hnp : normalizePricing (PyDict.getD d "pricing_model" Json.null) = some Json.null := by
    rw [hv]; rfl
  rw [transform_eval d url cd ct Json.null hnp]; rfl

/-- C9 witness. -/
theorem pricing_empty_string_null_witness :
    (transform_community_data (.obj [("pricing_model", Json.str "")]) "u" "d" "t").map
      (fun m => m.pricing_model) = some Json.null :=
  pricing_empty_string_null [("pricing_model", Json.str "")] "u" "d" "t" rfl

/-- C10: the transform only reads the payload dict: running the
transform program over any dict state returns that state unchanged, so
the caller's payload mapping is structurally identical before and after
the call. -/
theorem transform_does_not_mutate_input (d : PyDict)
    (url currentDate currentTimestamp : String) :
    ((transformProg url currentDate currentTimestamp).run d).2 = d := by
  simp only [transformProg, readN, readD, StateT.run, bind, StateT.bind, get, getThe,
    MonadStateOf.get, StateT.get, pure, StateT.pure]
  cases h : normalizePricing (PyDict.getD d "pricing_model" Json.null) <;> rfl

end MataConnect
